import Mathlib

/-!
# Shallow embedding of the BFHTW batch-ingestion pipeline framework

This file embeds, in Lean 4, the core of the BFHTW repository:

* `BFHTW/pipelines/base_pipeline.py` — `PipelineStatus`, `PipelineResult`,
  `ValidationResult`, `BasePipeline.run`, `BasePipeline._process_batch`,
  `BasePipeline._validate_item`;
* `BFHTW/pipelines/validation.py` — `CompositeValidator.validate`;
* `BFHTW/pipelines/pipeline_manager.py` — `PipelineExecution`,
  `PipelineManager.run_pipeline`, `PipelineManager._check_dependencies`;
* `BFHTW/utils/crud/crud.py` — `CRUD.insert`, `CRUD.get`, `CRUD.bulk_insert`.

Python exceptions are modelled with `Except`; a value of type `Except PyErr α`
is a computation that either returns normally (`.ok`) or raises (`.error`).
Wall-clock time is abstracted to a natural-number tick counter that advances
at each `datetime.now()` call that produces a stored timestamp, so timestamps
are monotone.  SQLite connections are modelled by passing the table state
explicitly; `conn.execute` of an `INSERT OR REPLACE` statement becomes a pure
update of that state, and the sqlite3 driver's parameter binding (Python value
→ SQL storage value) is the function `bindValue`.
-/

namespace BFHTW

/-- Python exceptions as seen by the pipeline code: pydantic `ValidationError`
is distinguished from every other `Exception` because `_process_batch` formats
the two differently. The payload is `str(e)`. -/
inductive PyErr where
  | validation (msg : String)
  | other (msg : String)
deriving DecidableEq, Repr

/-- `str(e)` for a modelled exception. -/
def PyErr.str : PyErr → String
  | .validation m => m
  | .other m => m

/-- `PipelineStatus` from `base_pipeline.py`. -/
inductive PipelineStatus where
  | pending
  | running
  | success
  | failed
  | cancelled
deriving DecidableEq, Repr

/-- The `metadata` dict built by `BasePipeline.run`; `_process_batch` returns
an empty dict, modelled as `none`. -/
structure RunMetadata where
  source : String
  batch_size : Nat
  total_items : Nat
deriving DecidableEq, Repr

/-- `PipelineResult` from `base_pipeline.py`.  Note: the dataclass has no
`warnings` field.  `execution_time` is wall-clock seconds in Python; timing is
abstracted here (always reported as `0`). -/
structure PipelineResult where
  pipeline_id : String
  status : PipelineStatus
  processed_count : Nat
  failed_count : Nat
  execution_time : Nat
  errors : List String
  metadata : Option RunMetadata
deriving DecidableEq, Repr

/-- `ValidationResult` from `base_pipeline.py`.  `score` is an optional float;
modelled with `ℚ` so that averaging stays exact. -/
structure ValidationResult where
  is_valid : Bool
  errors : List String
  warnings : List String
  score : Option ℚ := none
deriving DecidableEq, Repr

/-- A `DataValidator`: its `validate` method may raise. -/
def Validator (I : Type) := I → Except PyErr ValidationResult

/-- The `DataSource` interface of `base_pipeline.py`: `get_identifier`,
`validate_connection` and `fetch_metadata`; the latter two may raise. -/
structure Source (I : Type) where
  identifier : String
  validate_connection : Except PyErr Bool
  fetch_metadata : Except PyErr (List I)

/-- A concrete pipeline: the constructor arguments of `BasePipeline` together
with the two abstract hooks `process_item` and `store_item` and the string
rendering of items used in error messages (`f"... for item: {item}"`). -/
structure Pipeline (I R : Type) where
  name : String
  pipeline_id : String
  source : Source I
  validators : List (Validator I)
  batch_size : Nat := 100
  process_item : I → Except PyErr (Option R)
  store_item : R → Except PyErr Bool
  itemStr : I → String

/-- `BasePipeline._validate_item`: runs every validator in order, concatenating
errors and warnings; `is_valid` iff no errors.  The loop body calls
`validator.validate(item)` with no exception handler, so a raising validator
makes `_validate_item` itself raise. -/
def validateItemGo (item : I) : List (Validator I) → List String → List String →
    Except PyErr ValidationResult
  | [], es, ws => .ok { is_valid := es.isEmpty, errors := es, warnings := ws }
  | v :: rest, es, ws => do
      let r ← v item
      validateItemGo item rest (es ++ r.errors) (ws ++ r.warnings)

/-- Entry point of `_validate_item`. -/
def validateItem (vs : List (Validator I)) (item : I) : Except PyErr ValidationResult :=
  validateItemGo item vs [] []

/-- The error string `_process_batch` records for an exception raised while
handling one item: pydantic `ValidationError` and generic `Exception` get
different prefixes. -/
def excMsg : PyErr → String
  | .validation m => "Validation error: " ++ m
  | .other m => "Processing error: " ++ m

/-- The per-item body of `_process_batch`'s loop, including its
`try/except` handlers: returns the item's contribution
`(processed_count, failed_count, errors)`. -/
def processOne (P : Pipeline I R) (item : I) : Nat × Nat × List String :=
  match validateItem P.validators item with
  | .error e => (0, 1, [excMsg e])
  | .ok vr =>
    if !vr.is_valid then
      (0, 1, vr.errors)
    else
      match P.process_item item with
      | .error e => (0, 1, [excMsg e])
      | .ok none => (0, 1, ["Processing returned None for item: " ++ P.itemStr item])
      | .ok (some rec) =>
        match P.store_item rec with
        | .error e => (0, 1, [excMsg e])
        | .ok _ => (1, 0, [])

/-- One loop iteration of `_process_batch` acting on the accumulator
`(processed_count, failed_count, errors)`. -/
def stepFn (P : Pipeline I R) (acc : Nat × Nat × List String) (item : I) :
    Nat × Nat × List String :=
  let c := processOne P item
  (acc.1 + c.1, acc.2.1 + c.2.1, acc.2.2 ++ c.2.2)

/-- Accumulates per-item contributions in source order, exactly as the loop in
`_process_batch` does with its `processed_count`/`failed_count`/`errors`
variables. -/
def batchTotals (P : Pipeline I R) (batch : List I) : Nat × Nat × List String :=
  batch.foldl (stepFn P) (0, 0, [])

/-- `BasePipeline._process_batch`: total (every per-item exception is caught);
status `SUCCESS` iff no failures, `execution_time = 0`, empty metadata. -/
def processBatch (P : Pipeline I R) (batch : List I) : PipelineResult :=
  let t := batchTotals P batch
  { pipeline_id := P.pipeline_id
    status := if t.2.1 = 0 then .success else .failed
    processed_count := t.1
    failed_count := t.2.1
    execution_time := 0
    errors := t.2.2
    metadata := none }

/-- Worker for `chunks`, structurally recursive on a fuel argument (the
length of the original list bounds the number of slices, so from `chunks` the
fuel never runs out when `bs ≠ 0`). -/
def chunksAux (bs : Nat) : Nat → List I → List (List I)
  | _, [] => []
  | 0, _ :: _ => []
  | fuel + 1, x :: xs => (x :: xs).take bs :: chunksAux bs fuel ((x :: xs).drop bs)

/-- The batch slicing performed by `run`'s
`for batch_start in range(0, len(source_data), self.batch_size)` loop:
consecutive slices of length `bs` (the final one shorter).  Only used with
`bs > 0` (a zero step makes `range` itself raise, handled in `run`). -/
def chunks (bs : Nat) (l : List I) : List (List I) :=
  chunksAux bs l.length l

/-- One iteration of `run`'s batch loop: accumulates the batch result's counts
and errors into the run totals. -/
def runStepFn (P : Pipeline I R) (acc : Nat × Nat × List String) (batch : List I) :
    Nat × Nat × List String :=
  let b := processBatch P batch
  (acc.1 + b.processed_count, acc.2.1 + b.failed_count, acc.2.2 ++ b.errors)

/-- `BasePipeline.run`, with the `try/except` of the method made explicit:

* a raising or `False` `validate_connection` produces an immediate `FAILED`
  result with one connection-error entry (`total_items` is `0` because
  `source_data` is not yet in scope);
* a raising `fetch_metadata` likewise;
* `batch_size = 0` makes `range(0, n, 0)` raise `ValueError`, caught by the
  same handler (here `source_data` *is* in scope, so `total_items` is the
  fetched length);
* otherwise batches are processed sequentially and the final status is
  `SUCCESS` iff `failed_count == 0`. -/
def run (P : Pipeline I R) : PipelineResult :=
  let failRes : List String → Nat → PipelineResult := fun errs total =>
    { pipeline_id := P.pipeline_id
      status := .failed
      processed_count := 0
      failed_count := 0
      execution_time := 0
      errors := errs
      metadata := some { source := P.source.identifier, batch_size := P.batch_size,
                         total_items := total } }
  match P.source.validate_connection with
  | .error e => failRes [e.str] 0
  | .ok false => failRes ["Cannot connect to data source: " ++ P.source.identifier] 0
  | .ok true =>
    match P.source.fetch_metadata with
    | .error e => failRes [e.str] 0
    | .ok source_data =>
      if P.batch_size = 0 then
        failRes ["range() arg 3 must not be zero"] source_data.length
      else
        let totals := (chunks P.batch_size source_data).foldl (runStepFn P) (0, 0, [])
        { pipeline_id := P.pipeline_id
          status := if totals.2.1 = 0 then .success else .failed
          processed_count := totals.1
          failed_count := totals.2.1
          execution_time := 0
          errors := totals.2.2
          metadata := some { source := P.source.identifier, batch_size := P.batch_size,
                             total_items := source_data.length } }

/-- `CompositeValidator.validate` from `validation.py`: runs the configured
validators in order, concatenating errors and warnings and collecting numeric
scores; optionally stops after the first validator that reported errors; the
combined score is the average of the collected scores.  As in
`_validate_item`, the call `validator.validate(data)` is not guarded, so a
raising constituent makes the composite raise. -/
def compositeValidateGo (item : I) (stopOnFirstError : Bool) :
    List (Validator I) → List String → List String → List ℚ →
    Except PyErr ValidationResult
  | [], es, ws, ss =>
    .ok { is_valid := es.isEmpty, errors := es, warnings := ws,
          score := if ss.isEmpty then none else some (ss.sum / ss.length) }
  | v :: rest, es, ws, ss => do
      let r ← v item
      let es' := es ++ r.errors
      let ws' := ws ++ r.warnings
      let ss' := ss ++ (match r.score with | some x => [x] | none => [])
      if stopOnFirstError && !r.errors.isEmpty then
        .ok { is_valid := es'.isEmpty, errors := es', warnings := ws',
              score := if ss'.isEmpty then none else some (ss'.sum / ss'.length) }
      else
        compositeValidateGo item stopOnFirstError rest es' ws' ss'

/-- Entry point of `CompositeValidator.validate`. -/
def compositeValidate (vs : List (Validator I)) (stopOnFirstError : Bool)
    (item : I) : Except PyErr ValidationResult :=
  compositeValidateGo item stopOnFirstError vs [] [] []

/-! ## Pipeline manager (`pipeline_manager.py`) -/

/-- `PipelineConfig` from `pipeline_manager.py` (the fields `run_pipeline` and
`_check_dependencies` consult; scheduling fields are irrelevant here). -/
structure PipelineConfig where
  name : String
  enabled : Bool := true
  dependencies : List String := []
deriving DecidableEq, Repr

/-- `PipelineExecution` from `pipeline_manager.py`.  Timestamps are abstract
clock ticks. -/
structure PipelineExecution where
  pipeline_name : String
  execution_id : String
  start_time : Nat
  end_time : Option Nat := none
  status : PipelineStatus := .running
  result : Option PipelineResult := none
  error_message : Option String := none
deriving DecidableEq, Repr

/-- The mutable state of a `PipelineManager`: the config map, the append-only
execution history, the running-set (the keys of `running_pipelines`), and the
abstract clock read by `datetime.now()`. -/
structure ManagerState where
  pipelines : List (String × PipelineConfig)
  executions : List PipelineExecution
  running : List String
  clock : Nat
deriving DecidableEq, Repr

/-- The 24-hour freshness window of `_check_dependencies`
(`timedelta(hours=24)`), in abstract clock units. -/
def freshnessWindow : Nat := 24

/-- `PipelineManager._check_dependencies`: every declared dependency must have
some execution with its name, status `SUCCESS`, and a set `end_time` with
`end_time > now - 24h` (written here as `now < end_time + window`, which over
unbounded time is the same inequality without truncated subtraction). -/
def checkDependencies (s : ManagerState) (config : PipelineConfig) : Bool :=
  config.dependencies.all fun dep =>
    s.executions.any fun ex =>
      ex.pipeline_name == dep &&
      ex.status == PipelineStatus.success &&
      (match ex.end_time with
       | some t => decide (s.clock < t + freshnessWindow)
       | none => false)

/-- Replaces the last element of a list: the in-place mutation of the
`execution` object appended last to `self.executions`. -/
def finalizeLast (l : List PipelineExecution) (e : PipelineExecution) :
    List PipelineExecution :=
  l.dropLast ++ [e]

/-- `PipelineManager.run_pipeline`.  The body of the `try` block —
`_create_pipeline_instance` followed by `_run_with_timeout` (which just calls
`pipeline.run()`) — is abstracted to `body : Except PyErr (Option
PipelineResult)`, covering the three ways it can complete: a result, `None`,
or an exception.  The four fail-fast checks (unknown name, disabled, already
running, unsatisfied dependencies) return `None` and leave the state
untouched.  On an accepted start the name is registered in the running-set
and a `RUNNING` execution is appended; on completion the execution is
finalized and the `finally` block removes the name from the running-set. -/
def runPipeline (s : ManagerState) (name : String)
    (body : Except PyErr (Option PipelineResult)) :
    Option PipelineResult × ManagerState :=
  match (s.pipelines.lookup name) with
  | none => (none, s)
  | some config =>
    if !config.enabled then (none, s)
    else if s.running.contains name then (none, s)
    else if !checkDependencies s config then (none, s)
    else
      let start := s.clock
      let e0 : PipelineExecution :=
        { pipeline_name := name
          execution_id := name ++ "_" ++ toString start
          start_time := start }
      let s1 : ManagerState :=
        { s with
          running := s.running ++ [name]
          executions := s.executions ++ [e0]
          clock := s.clock + 1 }
      match body with
      | .ok result =>
        let e1 : PipelineExecution :=
          { e0 with
            end_time := some s1.clock
            status := match result with
                      | some r => r.status
                      | none => .failed
            result := result }
        (result,
         { s1 with
           executions := finalizeLast s1.executions e1
           running := s1.running.erase name
           clock := s1.clock + 1 })
      | .error e =>
        let e1 : PipelineExecution :=
          { e0 with
            end_time := some s1.clock
            status := .failed
            error_message :=
              some ("Pipeline '" ++ name ++ "' failed with error: " ++ e.str) }
        (none,
         { s1 with
           executions := finalizeLast s1.executions e1
           running := s1.running.erase name
           clock := s1.clock + 1 })

/-! ## Schema store (`utils/crud/crud.py`)

The sqlite connection is modelled by threading a `Table` value through the
operations; `conn.execute` of the generated statements becomes a pure update
or query of that value.  Python values flowing into the driver are `PyValue`;
the driver's parameter binding is `bindValue` (booleans are coerced to
integers by sqlite3 itself; lists are an unsupported type and raise). -/

/-- A Python value as produced by `model_dump(mode='python')` on the record
types the CRUD layer handles: `None`, `bool`, `int`, `str`, `list`. -/
inductive PyValue where
  | none
  | bool (b : Bool)
  | int (i : Int)
  | str (s : String)
  | list (l : List PyValue)

/-- A value as stored by SQLite. -/
inductive SqlValue where
  | null
  | intV (i : Int)
  | textV (s : String)
deriving DecidableEq, Repr

mutual
/-- `json.dumps` restricted to the `PyValue` universe (default separators). -/
def jsonDumps : PyValue → String
  | .none => "null"
  | .bool b => if b then "true" else "false"
  | .int i => toString i
  | .str s => "\"" ++ s ++ "\""
  | .list l => "[" ++ jsonDumpsList l ++ "]"

/-- Comma-joined rendering of a JSON array's elements. -/
def jsonDumpsList : List PyValue → String
  | [] => ""
  | [v] => jsonDumps v
  | v :: rest => jsonDumps v ++ ", " ++ jsonDumpsList rest
end

/-- The sqlite3 driver's parameter binding: `None → NULL`, `bool → 0/1`
(Python `bool` is an `int` subclass), `int → INTEGER`, `str → TEXT`; a `list`
is not a supported parameter type and makes `execute` raise. -/
def bindValue : PyValue → Except String SqlValue
  | .none => .ok .null
  | .bool b => .ok (.intV (if b then 1 else 0))
  | .int i => .ok (.intV i)
  | .str s => .ok (.textV s)
  | .list _ => .error "Error binding parameter: type 'list' is not supported"

/-- Binding of a whole parameter tuple, left to right: the first unsupported
value aborts the statement. -/
def bindAll : List PyValue → Except String (List SqlValue)
  | [] => .ok []
  | v :: vs => do
      let sv ← bindValue v
      let svs ← bindAll vs
      .ok (sv :: svs)

/-- A stored row: column name → stored value, in column order. -/
def Row := List (String × SqlValue)

instance : DecidableEq Row := inferInstanceAs (DecidableEq (List (String × SqlValue)))

/-- Value of a column in a row. -/
def rowGet (r : Row) (c : String) : Option SqlValue :=
  r.lookup c

/-- A table: its primary-key column name and its rows. -/
structure Table where
  pk : String
  rows : List Row

/-- SQL `=` comparison: `NULL` compares equal to nothing. -/
def sqlEq (a b : SqlValue) : Bool :=
  match a, b with
  | .null, _ => false
  | _, .null => false
  | a, b => a == b

/-- Effect of `INSERT OR REPLACE` on the table: any existing row whose
primary-key value conflicts with the new row's is deleted, then the new row is
inserted.  A `NULL` (or absent) primary key never conflicts. -/
def upsertRow (t : Table) (r : Row) : Table :=
  match rowGet r t.pk with
  | some v =>
    if v == SqlValue.null then { t with rows := t.rows ++ [r] }
    else
      { t with
        rows := t.rows.filter (fun row => !(match rowGet row t.pk with
                                            | some w => sqlEq w v
                                            | none => false)) ++ [r] }
  | none => { t with rows := t.rows ++ [r] }

/-- A pydantic record as the CRUD layer sees it: `model_dump(mode='python')`
yields an ordered field map, or raises. -/
structure Record where
  dump : Except String (List (String × PyValue))

/-- `CRUD.insert`: builds columns and values from `data.model_dump()` — with
NO conversion of the values — and executes
`INSERT OR REPLACE INTO table (columns) VALUES (placeholders)`.
Raises if `model_dump` raises or if the driver cannot bind a value
(e.g. a list-valued field).  Returns the updated table (the Python function
returns `data`). -/
def CRUD.insert (t : Table) (data : Record) : Except String Table := do
  let d ← data.dump
  let values := d.map (·.2)
  let bound ← bindAll values
  let row : Row := (d.map (·.1)).zip bound
  .ok (upsertRow t row)

/-- Python truthiness of the `id_field : Optional[str]` argument:
`None` and the empty string are falsy. -/
def strTruthy : Option String → Bool
  | Option.none => false
  | Option.some s => !s.isEmpty

/-- `CRUD.get`: `ALL=True` selects every row; otherwise a truthy `id_field`
together with a non-`None` `id_value` selects the rows where that column
equals the bound value (an empty result is the empty list); otherwise raises
`ValueError`. -/
def CRUD.get (t : Table) (id_field : Option String) (id_value : Option PyValue)
    (ALL : Bool) : Except String (List Row) :=
  if ALL then .ok t.rows
  else if strTruthy id_field && id_value.isSome then
    match id_field, id_value with
    | Option.some f, Option.some v => do
      let sv ← bindValue v
      .ok (t.rows.filter fun row =>
        match rowGet row f with
        | some w => sqlEq w sv
        | none => false)
    | _, _ => .error "unreachable"
  else .error "Must provide either ALL=True or (id_field + id_value)"

/-- The value conversion `bulk_insert` applies in code before binding:
`int(v)` for booleans, `json.dumps(v)` for lists, identity otherwise. -/
def serializeBulk : PyValue → PyValue
  | .bool b => .int (if b then 1 else 0)
  | .list l => .str (jsonDumps (.list l))
  | v => v

/-- One iteration of `bulk_insert`'s loop, `try` and `except` handler
included: dump the item, convert the values with `serializeBulk`, bind them,
and execute the statement prepared from the FIRST record's column list
(`fields0`).  An exception from binding or execution (here: an arity mismatch
with the prepared placeholders) is caught by the handler, whose two `print`
calls then succeed — the row is skipped (`.ok none`).  But when
`item.model_dump` itself raises, the handler is NOT a safe harbour: its
second log line interpolates `item.model_dump(mode='python')`, which raises
again, and that exception propagates out of `bulk_insert` (`.error`). -/
def tryBulkInsertOne (fields0 : List String) (t : Table) (item : Record) :
    Except String (Option Table) :=
  match item.dump with
  | .error e => .error e
  | .ok d =>
    match bindAll (d.map fun kv => serializeBulk kv.2) with
    | .error _ => .ok Option.none
    | .ok bound =>
      if bound.length = fields0.length then
        .ok (Option.some (upsertRow t (fields0.zip bound)))
      else .ok Option.none

/-- `bulk_insert`'s loop over the records: a skipped row leaves the
accumulator unchanged, a stored row bumps `successful` and updates the table,
and an escaping exception (a re-raising `model_dump`, see
`tryBulkInsertOne`) aborts the remaining records. -/
def bulkLoop (fields0 : List String) : List Record → Nat × Table →
    Except String (Nat × Table)
  | [], acc => .ok acc
  | item :: rest, acc =>
    match tryBulkInsertOne fields0 acc.2 item with
    | .error e => .error e
    | .ok Option.none => bulkLoop fields0 rest acc
    | .ok (Option.some t') => bulkLoop fields0 rest (acc.1 + 1, t')

/-- `CRUD.bulk_insert`.  An empty list short-circuits with a message.
Otherwise the column list is taken from `data_list[0].model_dump(mode =
'python')` — a call made OUTSIDE the per-row `try`, so its exception
propagates out of `bulk_insert` — and the records are then attempted by
`bulkLoop`, caught failures being counted out of the summary
`"Successfully inserted M/N records into {table}"`. -/
def CRUD.bulk_insert (tname : String) (t : Table) (data_list : List Record) :
    Except String (String × Table) :=
  match data_list with
  | [] => .ok ("No data to insert into " ++ tname, t)
  | first :: _ => do
    let d0 ← first.dump
    let fields0 := d0.map (·.1)
    let final ← bulkLoop fields0 data_list (0, t)
    .ok ("Successfully inserted " ++ toString final.1 ++ "/" ++
           toString data_list.length ++ " records into " ++ tname,
         final.2)

/-- Two consecutive `CRUD.insert` calls on the same table. -/
def insertTwice (t : Table) (r1 r2 : Record) : Except String Table := do
  let t1 ← CRUD.insert t r1
  CRUD.insert t1 r2

/-- The storage value a Python field value ends up as on the `bulk_insert`
path: the in-code conversion `serializeBulk` followed by driver binding
(which can no longer fail, since lists were stringified). -/
def storedOf : PyValue → SqlValue
  | .none => .null
  | .bool b => .intV (if b then 1 else 0)
  | .int i => .intV i
  | .str s => .textV s
  | .list l => .textV (jsonDumps (.list l))

/-! ## Concrete instances used in witnesses and counterexamples -/

/-- A validator that accepts everything (e.g. an empty required-field list). -/
def vOk : Validator Nat := fun _ => .ok { is_valid := true, errors := [], warnings := [] }

/-- A validator whose `validate` raises, as a buggy custom validator would. -/
def vBoom : Validator Nat := fun _ => .error (.other "validator blew up")

/-- A healthy source serving the given items. -/
def srcOf (items : List Nat) : Source Nat :=
  { identifier := "demo-source"
    validate_connection := .ok true
    fetch_metadata := .ok items }

/-- A demo pipeline over `Nat` items: even items process and store fine, odd
items make `process_item` raise. -/
def demoPipeline (items : List Nat) : Pipeline Nat Nat :=
  { name := "demo"
    pipeline_id := "pid-1"
    source := srcOf items
    validators := []
    batch_size := 100
    process_item := fun i =>
      if i % 2 = 0 then .ok (some i) else .error (.other ("exploding item " ++ toString i))
    store_item := fun _ => .ok true
    itemStr := fun i => toString i }

/-- A pipeline whose hooks always succeed, used to vary only the item lists. -/
def okPipeline (items : List Nat) (bs : Nat) : Pipeline Nat Nat :=
  { name := "ok"
    pipeline_id := "pid-2"
    source := srcOf items
    validators := []
    batch_size := bs
    process_item := fun i => .ok (some i)
    store_item := fun _ => .ok true
    itemStr := fun i => toString i }

/-- A pipeline whose validator chain is `[vOk, vBoom]`: the second validator
raises on every item. -/
def demoValPipeline : Pipeline Nat Nat :=
  { name := "val-demo"
    pipeline_id := "pid-3"
    source := srcOf [7]
    validators := [vOk, vBoom]
    batch_size := 10
    process_item := fun i => .ok (some i)
    store_item := fun _ => .ok true
    itemStr := fun i => toString i }

/-- A manager state with one enabled, dependency-free pipeline `X` currently
running. -/
def mgrRunning : ManagerState :=
  { pipelines := [("X", { name := "X" })]
    executions := []
    running := ["X"]
    clock := 3 }

/-- A manager state with `X` idle and ready to start. -/
def mgrIdle : ManagerState :=
  { pipelines := [("X", { name := "X" })]
    executions := []
    running := []
    clock := 5 }

/-- A manager state where `B` depends on `A` and the only execution of `A`
is a success that ended outside the freshness window. -/
def mgrStale : ManagerState :=
  { pipelines := [("B", { name := "B", dependencies := ["A"] })]
    executions := [{ pipeline_name := "A"
                     execution_id := "A_1"
                     start_time := 0
                     end_time := some 1
                     status := .success }]
    running := []
    clock := 40 }

/-- An empty table keyed on `id`. -/
def tblEmpty : Table := { pk := "id", rows := [] }

/-- Records sharing the primary-key value `x1` with different payloads. -/
def recV1 : Record := { dump := .ok [("id", .str "x1"), ("n", .int 1)] }

/-- Second record with the same key as `recV1` and a different payload. -/
def recV2 : Record := { dump := .ok [("id", .str "x1"), ("n", .int 2)] }

/-- A record with a boolean and a list-valued field. -/
def recBoolList : Record :=
  { dump := .ok [("id", .str "x1"), ("active", .bool true),
                 ("tags", .list [.str "a", .str "b"])] }

/-- A record whose `model_dump` raises. -/
def recBadDump : Record := { dump := .error "dump blew up" }

/-- A record that dumps fine but with two fields, so that executing the
one-placeholder statement prepared from a single-column first record raises
(incorrect number of bindings) — a caught, per-row failure. -/
def recTwoCols : Record :=
  { dump := .ok [("id", .str "z"), ("extra", .int 1)] }

/-- Well-behaved single-column records. -/
def recA : Record := { dump := .ok [("id", .str "a")] }

/-- Second well-behaved record, key `b`. -/
def recB : Record := { dump := .ok [("id", .str "b")] }

/-- Third well-behaved record, key `c`. -/
def recC : Record := { dump := .ok [("id", .str "c")] }

/-! ## Helper lemmas -/

/-- `_process_batch`'s loop from an arbitrary accumulator: the totals split
off additively. -/
theorem foldl_stepFn (P : Pipeline I R) (l : List I)
    (acc : Nat × Nat × List String) :
    l.foldl (stepFn P) acc =
      (acc.1 + (batchTotals P l).1,
       acc.2.1 + (batchTotals P l).2.1,
       acc.2.2 ++ (batchTotals P l).2.2) := by
  induction l generalizing acc with
  | nil => simp [batchTotals]
  | cons x l ih =>
      simp only [batchTotals, List.foldl_cons]
      rw [ih (stepFn P acc x), ih (stepFn P (0, 0, []) x)]
      simp [stepFn, Nat.add_assoc, List.append_assoc]

/-- Batch totals over a concatenation combine additively and in order. -/
theorem batchTotals_append (P : Pipeline I R) (xs ys : List I) :
    batchTotals P (xs ++ ys) =
      ((batchTotals P xs).1 + (batchTotals P ys).1,
       (batchTotals P xs).2.1 + (batchTotals P ys).2.1,
       (batchTotals P xs).2.2 ++ (batchTotals P ys).2.2) := by
  unfold batchTotals
  rw [List.foldl_append, foldl_stepFn]
  rfl

/-- The per-item totals of a singleton batch. -/
theorem batchTotals_singleton (P : Pipeline I R) (item : I) :
    batchTotals P [item] = processOne P item := by
  simp [batchTotals, stepFn]

/-- `run`'s batch loop accumulates exactly the per-item totals of the
concatenation of the batches. -/
theorem foldl_runStepFn (P : Pipeline I R) (bl : List (List I))
    (acc : Nat × Nat × List String) :
    bl.foldl (runStepFn P) acc =
      (acc.1 + (batchTotals P bl.flatten).1,
       acc.2.1 + (batchTotals P bl.flatten).2.1,
       acc.2.2 ++ (batchTotals P bl.flatten).2.2) := by
  induction bl generalizing acc with
  | nil => simp [batchTotals]
  | cons b bl ih =>
      simp only [List.foldl_cons, List.flatten_cons]
      rw [ih, batchTotals_append]
      simp [runStepFn, processBatch, Nat.add_assoc, List.append_assoc]

/-- Fuel irrelevance: with enough fuel and a nonzero chunk size, the slices
recombine to the original list. -/
theorem chunksAux_join (bs : Nat) (hbs : bs ≠ 0) :
    ∀ (fuel : Nat) (l : List I), l.length ≤ fuel → (chunksAux bs fuel l).flatten = l := by
  intro fuel
  induction fuel with
  | zero =>
      intro l hlen
      have : l = [] := List.eq_nil_of_length_eq_zero (Nat.le_zero.mp hlen)
      subst this
      simp [chunksAux]
  | succ fuel ih =>
      intro l hlen
      match l with
      | [] => simp [chunksAux]
      | x :: xs =>
          simp only [chunksAux, List.flatten_cons]
          rw [ih]
          · exact List.take_append_drop bs (x :: xs)
          · simp only [List.length_drop, List.length_cons]
            simp only [List.length_cons] at hlen
            omega

/-- The batches of `run` exactly partition the fetched items. -/
theorem chunks_join (bs : Nat) (hbs : bs ≠ 0) (l : List I) :
    (chunks bs l).flatten = l :=
  chunksAux_join bs hbs l.length l le_rfl

/-- Master characterization of `BasePipeline.run` on the normal path
(connection validates, fetch succeeds, nonzero batch size): the result is the
per-item totals of the whole item list, with status `SUCCESS` iff nothing
failed. -/
theorem run_characterization (P : Pipeline I R) (items : List I)
    (hconn : P.source.validate_connection = .ok true)
    (hfetch : P.source.fetch_metadata = .ok items)
    (hbs : P.batch_size ≠ 0) :
    run P =
      { pipeline_id := P.pipeline_id
        status := if (batchTotals P items).2.1 = 0 then .success else .failed
        processed_count := (batchTotals P items).1
        failed_count := (batchTotals P items).2.1
        execution_time := 0
        errors := (batchTotals P items).2.2
        metadata := some { source := P.source.identifier
                           batch_size := P.batch_size
                           total_items := items.length } } := by
  unfold run
  rw [hconn, hfetch]
  simp only [hbs, if_false]
  rw [foldl_runStepFn, chunks_join _ hbs]
  simp

/-! ## Claim C1 -/

/-- C1, counterexample.  The claim states that a run with
`processed_count > 0` and `failed_count > 0` finishes with status `SUCCESS`
(partial success, with a warning).  In `demoPipeline [0, 1]` item `0`
processes and stores, item `1` raises, so `processed_count = 1` and
`failed_count = 1`; yet `run` reports `FAILED` (its status expression is
`SUCCESS if failed_count == 0 else FAILED`, with no partial-success branch;
`PipelineResult` does not even have a `warnings` field). -/
theorem c1_counterexample :
    0 < (run (demoPipeline [0, 1])).processed_count ∧
    0 < (run (demoPipeline [0, 1])).failed_count ∧
    (run (demoPipeline [0, 1])).status ≠ .success := by
  decide

/-- C1, amended.  For every run in which the source connection validates,
fetch succeeds and the batch size is nonzero, the final status is `SUCCESS`
iff `failed_count == 0` and `FAILED` iff `failed_count > 0`, regardless of
`processed_count`: there is no partial-success status. -/
theorem c1_run_final_status (P : Pipeline I R) (items : List I)
    (hconn : P.source.validate_connection = .ok true)
    (hfetch : P.source.fetch_metadata = .ok items)
    (hbs : P.batch_size ≠ 0) :
    ((run P).status = .success ↔ (run P).failed_count = 0) ∧
    ((run P).status = .failed ↔ 0 < (run P).failed_count) := by
  rw [run_characterization P items hconn hfetch hbs]
  by_cases h : (batchTotals P items).2.1 = 0
  · simp [h]
  · simp [h]
    omega

/-- C1 witness: the amended status rule applied to the concrete demo run with
one success and one failure. -/
theorem c1_witness :
    ((run (demoPipeline [0, 1])).status = .success ↔
      (run (demoPipeline [0, 1])).failed_count = 0) ∧
    ((run (demoPipeline [0, 1])).status = .failed ↔
      0 < (run (demoPipeline [0, 1])).failed_count) :=
  c1_run_final_status (demoPipeline [0, 1]) [0, 1] rfl rfl (by decide)

/-! ## Claim C2 -/

/-- Peeling the head item off the batch totals. -/
theorem batchTotals_cons (P : Pipeline I R) (x : I) (l : List I) :
    batchTotals P (x :: l) =
      ((processOne P x).1 + (batchTotals P l).1,
       (processOne P x).2.1 + (batchTotals P l).2.1,
       (processOne P x).2.2 ++ (batchTotals P l).2.2) := by
  unfold batchTotals
  rw [List.foldl_cons, foldl_stepFn]
  simp [stepFn]
  exact ⟨rfl, rfl, rfl⟩

/-- C2: per-item fault isolation.  If an item passes validation but
`process_item` or `store_item` raises, then in any batch containing it the
exception text is recorded as one error entry, `failed_count` grows by
exactly one for that item, and every other item of the batch — before or
after it — contributes exactly what it would contribute alone; and on the
normal `run` path the same holds across all batches of the run (no per-item
exception escapes `_process_batch` or aborts the run). -/
theorem c2_per_item_fault_isolation (P : Pipeline I R) (xs ys : List I)
    (item : I) (e : PyErr)
    (hvalid : ∃ vr, validateItem P.validators item = .ok vr ∧ vr.is_valid = true)
    (hraise : P.process_item item = .error e ∨
              ∃ r, P.process_item item = .ok (some r) ∧ P.store_item r = .error e) :
    ((processBatch P (xs ++ item :: ys)).processed_count
        = (processBatch P xs).processed_count + (processBatch P ys).processed_count ∧
     (processBatch P (xs ++ item :: ys)).failed_count
        = (processBatch P xs).failed_count + 1 + (processBatch P ys).failed_count ∧
     (processBatch P (xs ++ item :: ys)).errors
        = (processBatch P xs).errors ++ excMsg e :: (processBatch P ys).errors) ∧
    (P.source.validate_connection = .ok true →
     P.source.fetch_metadata = .ok (xs ++ item :: ys) →
     P.batch_size ≠ 0 →
     (run P).processed_count
        = (processBatch P xs).processed_count + (processBatch P ys).processed_count ∧
     (run P).failed_count
        = (processBatch P xs).failed_count + 1 + (processBatch P ys).failed_count ∧
     (run P).errors
        = (processBatch P xs).errors ++ excMsg e :: (processBatch P ys).errors) := by
  have hone : processOne P item = (0, 1, [excMsg e]) := by
    obtain ⟨vr, hv, hval⟩ := hvalid
    rcases hraise with h | ⟨r, hp, hs⟩
    · simp [processOne, hv, hval, h]
    · simp [processOne, hv, hval, hp, hs]
  have hmid : batchTotals P (xs ++ item :: ys) =
      ((batchTotals P xs).1 + (batchTotals P ys).1,
       (batchTotals P xs).2.1 + 1 + (batchTotals P ys).2.1,
       (batchTotals P xs).2.2 ++ excMsg e :: (batchTotals P ys).2.2) := by
    rw [batchTotals_append, batchTotals_cons, hone]
    simp [Nat.add_comm, Nat.add_assoc, Nat.add_left_comm]
  constructor
  · simp [processBatch, hmid]
  · intro hconn hfetch hbs
    rw [run_characterization P _ hconn hfetch hbs]
    simp [processBatch, hmid]

/-- C2 witness: in `demoPipeline [0, 1, 2]` the middle item `1` makes
`process_item` raise; the batch of all three items still processes items `0`
and `2`, counts one failure for item `1`, and records its exception text. -/
theorem c2_witness :
    (processBatch (demoPipeline [0, 1, 2]) ([0] ++ 1 :: [2])).processed_count
        = (processBatch (demoPipeline [0, 1, 2]) [0]).processed_count +
          (processBatch (demoPipeline [0, 1, 2]) [2]).processed_count ∧
    (processBatch (demoPipeline [0, 1, 2]) ([0] ++ 1 :: [2])).failed_count
        = (processBatch (demoPipeline [0, 1, 2]) [0]).failed_count + 1 +
          (processBatch (demoPipeline [0, 1, 2]) [2]).failed_count ∧
    (run (demoPipeline [0, 1, 2])).errors
        = (processBatch (demoPipeline [0, 1, 2]) [0]).errors ++
            excMsg (.other "exploding item 1") ::
              (processBatch (demoPipeline [0, 1, 2]) [2]).errors := by
  have h := c2_per_item_fault_isolation (demoPipeline [0, 1, 2]) [0] [2] 1
    (.other "exploding item 1") ⟨_, rfl, rfl⟩ (Or.inl rfl)
  exact ⟨h.1.1, h.1.2.1, (h.2 rfl rfl (by decide)).2.2⟩

/-! ## Claim C3 -/

/-- C3: single-flight.  A `run_pipeline(X)` call made while an execution of
`X` is registered in the running-set returns `None` and leaves the manager
state — in particular the execution history — unchanged, so no second
`Execution` is appended and at most one execution of a named pipeline is
active at a time. -/
theorem c3_single_flight (s : ManagerState) (name : String)
    (body : Except PyErr (Option PipelineResult))
    (h : name ∈ s.running) :
    runPipeline s name body = (none, s) := by
  unfold runPipeline
  cases hl : s.pipelines.lookup name with
  | none => rfl
  | some config =>
      have hc : s.running.contains name = true := by
        simpa using h
      by_cases he : config.enabled
      · simp only [he, hc]
        simp
      · simp [he]

/-- C3 witness: in `mgrRunning` pipeline `X` is running; a second call for
`X` returns `None` and changes nothing. -/
theorem c3_witness :
    runPipeline mgrRunning "X" (.ok none) = (none, mgrRunning) :=
  c3_single_flight mgrRunning "X" (.ok none) (by decide)

/-! ## Claim C5 -/

/-- C5: on every accepted invocation and on every exit path of the `try`
body — a returned result, a `None` result, or a raised exception — the
appended `Execution` is finalized: `end_time` is set one tick after
`start_time` (so `end_time ≥ start_time`), `status` is set from the result
(`FAILED` on `None` or exception), `result` or `error_message` is set, and
the running-set is restored (the single-flight lock is released). -/
theorem c5_execution_finalized (s : ManagerState) (name : String)
    (config : PipelineConfig) (body : Except PyErr (Option PipelineResult))
    (hlook : s.pipelines.lookup name = some config)
    (hen : config.enabled = true)
    (hrun : name ∉ s.running)
    (hdep : checkDependencies s config = true) :
    ∃ e1 : PipelineExecution,
      (runPipeline s name body).2.executions = s.executions ++ [e1] ∧
      e1.pipeline_name = name ∧
      e1.start_time = s.clock ∧
      e1.end_time = some (s.clock + 1) ∧
      e1.start_time ≤ s.clock + 1 ∧
      (runPipeline s name body).2.running = s.running ∧
      e1.status = (match body with
                   | .ok (some r) => r.status
                   | .ok none => .failed
                   | .error _ => .failed) ∧
      e1.result = (match body with
                   | .ok r => r
                   | .error _ => none) ∧
      e1.error_message = (match body with
                          | .ok _ => none
                          | .error e =>
                            some ("Pipeline '" ++ name ++ "' failed with error: "
                                    ++ e.str)) ∧
      (runPipeline s name body).1 = (match body with
                                     | .ok r => r
                                     | .error _ => none) := by
  have hc : s.running.contains name = false := by
    simpa using hrun
  have herase : (s.running ++ [name]).erase name = s.running := by
    rw [List.erase_append_right _ hrun]
    simp
  cases body with
  | ok result =>
      refine ⟨{ pipeline_name := name
                execution_id := name ++ "_" ++ toString s.clock
                start_time := s.clock
                end_time := some (s.clock + 1)
                status := match result with
                          | some r => r.status
                          | none => .failed
                result := result }, ?_⟩
      unfold runPipeline
      rw [hlook]
      simp only [hen, hc, hdep, Bool.not_true, Bool.false_eq_true, if_false, if_true]
      cases result with
      | some r =>
          simp [finalizeLast, herase, List.dropLast_concat]
      | none =>
          simp [finalizeLast, herase, List.dropLast_concat]
  | error e =>
      refine ⟨{ pipeline_name := name
                execution_id := name ++ "_" ++ toString s.clock
                start_time := s.clock
                end_time := some (s.clock + 1)
                status := .failed
                error_message :=
                  some ("Pipeline '" ++ name ++ "' failed with error: " ++ e.str) }, ?_⟩
      unfold runPipeline
      rw [hlook]
      simp only [hen, hc, hdep, Bool.not_true, Bool.false_eq_true, if_false, if_true]
      simp [finalizeLast, herase, List.dropLast_concat]

/-- C5 witness: an accepted run of `X` from `mgrIdle` whose body raises; the
appended execution is finalized with `end_time = start_time + 1`, status
`FAILED`, the error message set, and the lock released. -/
theorem c5_witness :
    ∃ e1 : PipelineExecution,
      (runPipeline mgrIdle "X" (.error (.other "boom"))).2.executions
        = mgrIdle.executions ++ [e1] ∧
      e1.pipeline_name = "X" ∧
      e1.start_time = mgrIdle.clock ∧
      e1.end_time = some (mgrIdle.clock + 1) ∧
      e1.start_time ≤ mgrIdle.clock + 1 ∧
      (runPipeline mgrIdle "X" (.error (.other "boom"))).2.running
        = mgrIdle.running ∧
      e1.status = (match (Except.error (.other "boom") :
                            Except PyErr (Option PipelineResult)) with
                   | .ok (some r) => r.status
                   | .ok none => .failed
                   | .error _ => .failed) ∧
      e1.result = (match (Except.error (.other "boom") :
                            Except PyErr (Option PipelineResult)) with
                   | .ok r => r
                   | .error _ => none) ∧
      e1.error_message = (match (Except.error (.other "boom") :
                                   Except PyErr (Option PipelineResult)) with
                          | .ok _ => none
                          | .error e =>
                            some ("Pipeline '" ++ "X" ++ "' failed with error: "
                                    ++ e.str)) ∧
      (runPipeline mgrIdle "X" (.error (.other "boom"))).1
        = (match (Except.error (.other "boom") :
                    Except PyErr (Option PipelineResult)) with
           | .ok r => r
           | .error _ => none) :=
  c5_execution_finalized mgrIdle "X" { name := "X" } (.error (.other "boom"))
    rfl rfl (by decide) rfl

/-! ## Claim C7 -/

/-- C7: dependency gating.  If pipeline `B` declares dependency `A` and the
history holds no execution of `A` with status `SUCCESS` whose `end_time`
falls within the freshness window before now, then `run_pipeline(B)` returns
`None` with the state unchanged — before any execution of `B` is appended
and before the pipeline body is started. -/
theorem c7_dependency_gating (s : ManagerState) (nameB depA : String)
    (config : PipelineConfig) (body : Except PyErr (Option PipelineResult))
    (hlook : s.pipelines.lookup nameB = some config)
    (hdep : depA ∈ config.dependencies)
    (hstale : ∀ ex ∈ s.executions, ex.pipeline_name = depA →
        ex.status = .success →
        ∀ t, ex.end_time = some t → ¬ s.clock < t + freshnessWindow) :
    runPipeline s nameB body = (none, s) := by
  unfold runPipeline
  rw [hlook]
  by_cases he : config.enabled
  · by_cases hr : s.running.contains nameB
    · simp [he, hr]
      intro h1
      exact absurd (by simpa using hr) h1
    · have hcd : checkDependencies s config = false := by
        apply Bool.eq_false_iff.mpr
        intro hall
        rw [checkDependencies, List.all_eq_true] at hall
        have hany := hall depA hdep
        rw [List.any_eq_true] at hany
        obtain ⟨ex, hmem, hex⟩ := hany
        simp only [Bool.and_eq_true, beq_iff_eq] at hex
        obtain ⟨⟨hname, hstatus⟩, hend⟩ := hex
        cases het : ex.end_time with
        | none => rw [het] at hend; exact absurd hend (by simp)
        | some t =>
            rw [het] at hend
            simp only [decide_eq_true_eq] at hend
            exact hstale ex hmem hname hstatus t het hend
      simp [he, hr, hcd]
  · simp [he]

/-- C7 witness: in `mgrStale`, `B` depends on `A` whose only `SUCCESS`
execution ended at tick 1 while the clock is at 40 (outside the window of
24); `run_pipeline("B")` returns `None` and appends nothing. -/
theorem c7_witness :
    runPipeline mgrStale "B" (.ok none) = (none, mgrStale) :=
  c7_dependency_gating mgrStale "B" "A"
    { name := "B", dependencies := ["A"] } (.ok none)
    rfl (by decide) (by decide)

/-! ## Claim C4 -/

/-- C4, counterexample.  The claim states that the chained validation call
(`CompositeValidator.validate`, and `BasePipeline._validate_item`) never
raises, converting a constituent's exception into an error entry with
`is_valid=false`.  With the raising validator `vBoom` both calls raise: the
loop `result = validator.validate(data)` has no exception handler in either
method. -/
theorem c4_counterexample :
    compositeValidate [vBoom] false (0 : Nat) = .error (.other "validator blew up") ∧
    validateItem [vBoom] (0 : Nat) = .error (.other "validator blew up") :=
  ⟨rfl, rfl⟩

/-- Reduction of the modelled exception monad: binding a normal return. -/
theorem except_bind_ok (a : α) (f : α → Except ε β) :
    (Except.ok a : Except ε α) >>= f = f a := rfl

/-- Reduction of the modelled exception monad: binding a raised exception. -/
theorem except_bind_error (e : ε) (f : α → Except ε β) :
    (Except.error e : Except ε α) >>= f = .error e := rfl

/-- Auxiliary: `_validate_item`'s loop propagates the first constituent
exception, from any accumulator state, once the validators before it return
normally. -/
theorem validateItemGo_error (item : I) (vbad : Validator I) (e : PyErr)
    (hbad : vbad item = .error e) :
    ∀ (pre : List (Validator I)), (∀ v ∈ pre, ∃ r, v item = .ok r) →
      ∀ (post : List (Validator I)) (es ws : List String),
        validateItemGo item (pre ++ vbad :: post) es ws = .error e := by
  intro pre
  induction pre with
  | nil =>
      intro _ post es ws
      simp only [List.nil_append, validateItemGo, hbad, except_bind_error]
  | cons v rest ih =>
      intro hpre post es ws
      obtain ⟨r, hr⟩ := hpre v (by simp)
      simp only [List.cons_append, validateItemGo, hr, except_bind_ok]
      exact ih (fun w hw => hpre w (by simp [hw])) post _ _

/-- Auxiliary: `CompositeValidator.validate`'s loop propagates the first
constituent exception once the validators before it return normally without
errors (so that `stop_on_first_error` does not end the loop early). -/
theorem compositeValidateGo_error (item : I) (stop : Bool) (vbad : Validator I)
    (e : PyErr) (hbad : vbad item = .error e) :
    ∀ (pre : List (Validator I)), (∀ v ∈ pre, ∃ r, v item = .ok r ∧ r.errors = []) →
      ∀ (post : List (Validator I)) (es ws : List String) (ss : List ℚ),
        compositeValidateGo item stop (pre ++ vbad :: post) es ws ss = .error e := by
  intro pre
  induction pre with
  | nil =>
      intro _ post es ws ss
      simp only [List.nil_append, compositeValidateGo, hbad, except_bind_error]
  | cons v rest ih =>
      intro hpre post es ws ss
      obtain ⟨r, hr, herr⟩ := hpre v (by simp)
      simp only [List.cons_append, compositeValidateGo, hr, except_bind_ok, herr,
        List.isEmpty_nil, Bool.not_true, Bool.and_false]
      exact ih (fun w hw => hpre w (by simp [hw])) post _ _ _

/-- C4, amended.  Individual shipped validators catch their own internal
faults, but the chaining calls do not: an exception raised by a constituent
validator propagates out of both `CompositeValidator.validate` and
`BasePipeline._validate_item` (for any prefix of well-behaved validators and
any `stop_on_first_error` setting); it is converted into an error entry and
a failure count only one level up, by `_process_batch`'s per-item handler. -/
theorem c4_validation_fault_propagation (pre post : List (Validator I))
    (vbad : Validator I) (item : I) (e : PyErr) (stop : Bool)
    (hpre : ∀ v ∈ pre, ∃ r, v item = .ok r ∧ r.errors = [])
    (hbad : vbad item = .error e) :
    validateItem (pre ++ vbad :: post) item = .error e ∧
    compositeValidate (pre ++ vbad :: post) stop item = .error e ∧
    ∀ (P : Pipeline I R), P.validators = pre ++ vbad :: post →
      processOne P item = (0, 1, [excMsg e]) := by
  have h1 : validateItem (pre ++ vbad :: post) item = .error e :=
    validateItemGo_error item vbad e hbad pre
      (fun v hv => (hpre v hv).imp fun r hr => hr.1) post [] []
  refine ⟨h1, ?_, ?_⟩
  · exact compositeValidateGo_error item stop vbad e hbad pre hpre post [] [] []
  · intro P hP
    unfold processOne
    rw [hP, h1]

/-- C4 witness: `demoValPipeline`'s chain is `[vOk, vBoom]`; both chained
calls raise on item `7`, and `_process_batch`'s per-item handler catches the
exception as one failure with the converted message. -/
theorem c4_witness :
    validateItem ([vOk] ++ vBoom :: []) 7 = .error (.other "validator blew up") ∧
    compositeValidate ([vOk] ++ vBoom :: []) false 7
      = .error (.other "validator blew up") ∧
    processOne demoValPipeline 7
      = (0, 1, [excMsg (.other "validator blew up")]) := by
  have h := c4_validation_fault_propagation (R := Nat) [vOk] [] vBoom 7
    (.other "validator blew up") false
    (by
      intro v hv
      simp only [List.mem_singleton] at hv
      subst hv
      exact ⟨_, rfl, rfl⟩)
    rfl
  exact ⟨h.1, h.2.1, h.2.2 demoValPipeline rfl⟩

/-! ## Claim C6 -/

/-- `INSERT OR REPLACE` never alters the table's primary-key column. -/
theorem upsertRow_pk (t : Table) (r : Row) : (upsertRow t r).pk = t.pk := by
  unfold upsertRow
  cases rowGet r t.pk with
  | none => rfl
  | some v =>
      by_cases h : v == SqlValue.null
      · simp [h]
      · simp [h]

/-- Rows removed by the conflict filter cannot survive a filter for the same
conflict. -/
theorem filter_not_filter (p : α → Bool) (l : List α) :
    (l.filter fun a => !(p a)).filter p = [] := by
  induction l with
  | nil => rfl
  | cons a l ih =>
      by_cases h : p a
      · simp [h, ih]
      · simp [h, ih]

/-- A non-`NULL` value equals itself under SQL comparison. -/
theorem sqlEq_self (v : SqlValue) (hv : v ≠ .null) : sqlEq v v = true := by
  cases v with
  | null => exact absurd rfl hv
  | intV i => simp [sqlEq]
  | textV s => simp [sqlEq]

/-- C6: `insert` is an upsert.  Calling `CRUD.insert` twice with records that
dump and bind successfully and share the same non-`NULL` primary-key value
leaves exactly one row with that key, and that row is the second record's row
(the later insert replaces the earlier one). -/
theorem c6_insert_upsert (t : Table) (r1 r2 : Record)
    (d1 d2 : List (String × PyValue)) (vs1 vs2 : List SqlValue) (v : SqlValue)
    (hd1 : r1.dump = .ok d1) (hd2 : r2.dump = .ok d2)
    (hb1 : bindAll (d1.map (·.2)) = .ok vs1)
    (hb2 : bindAll (d2.map (·.2)) = .ok vs2)
    (_hpk1 : rowGet ((d1.map (·.1)).zip vs1) t.pk = some v)
    (hpk2 : rowGet ((d2.map (·.1)).zip vs2) t.pk = some v)
    (hv : v ≠ .null) :
    ∃ t2 : Table,
      insertTwice t r1 r2 = .ok t2 ∧
      t2.rows.filter (fun row => match rowGet row t.pk with
                                 | some w => sqlEq w v
                                 | none => false)
        = [(d2.map (·.1)).zip vs2] := by
  have h1 : CRUD.insert t r1 = .ok (upsertRow t ((d1.map (·.1)).zip vs1)) := by
    unfold CRUD.insert
    rw [hd1]
    simp only [except_bind_ok, hb1]
  set t1 := upsertRow t ((d1.map (·.1)).zip vs1) with ht1
  have hpk : t1.pk = t.pk := upsertRow_pk ..
  have h2 : CRUD.insert t1 r2 = .ok (upsertRow t1 ((d2.map (·.1)).zip vs2)) := by
    unfold CRUD.insert
    rw [hd2]
    simp only [except_bind_ok, hb2]
  refine ⟨upsertRow t1 ((d2.map (·.1)).zip vs2), ?_, ?_⟩
  · unfold insertTwice
    rw [h1]
    simp only [except_bind_ok, h2]
  · have hpkrow2 : rowGet ((d2.map (·.1)).zip vs2) t1.pk = some v := by
      rw [hpk]; exact hpk2
    have hvneq : (v == SqlValue.null) = false := by
      simp [hv]
    unfold upsertRow
    rw [hpkrow2]
    dsimp only
    rw [hvneq]
    simp only [Bool.false_eq_true, if_false]
    rw [hpk]
    rw [List.filter_append, filter_not_filter]
    simp [hpk2, sqlEq_self v hv]

/-- C6 witness: inserting `recV1` then `recV2` (same key `x1`) leaves exactly
the one row carrying `recV2`'s values. -/
theorem c6_witness :
    ∃ t2 : Table,
      insertTwice tblEmpty recV1 recV2 = .ok t2 ∧
      t2.rows.filter (fun row => match rowGet row tblEmpty.pk with
                                 | some w => sqlEq w (.textV "x1")
                                 | none => false)
        = [[("id", SqlValue.textV "x1"), ("n", SqlValue.intV 2)]] :=
  c6_insert_upsert tblEmpty recV1 recV2
    [("id", .str "x1"), ("n", .int 1)] [("id", .str "x1"), ("n", .int 2)]
    [.textV "x1", .intV 1] [.textV "x1", .intV 2] (.textV "x1")
    rfl rfl rfl rfl rfl rfl (by decide)

/-! ## Claim C8 -/

/-- C8, counterexample.  The claim states that records written through
`CRUD.insert` have list-valued fields serialized to a string encoding before
being written.  `CRUD.insert` applies no conversion at all to the dumped
values (only `bulk_insert` does): binding the raw Python list makes the
driver raise, so the record — `recBoolList`, with a list field `tags` — is
never written at all, let alone with a serialized list. -/
theorem c8_counterexample :
    CRUD.insert tblEmpty recBoolList =
      .error "Error binding parameter: type 'list' is not supported" := rfl

/-- The `bulk_insert` value conversion composed with driver binding always
succeeds and yields `storedOf`. -/
theorem bindValue_serializeBulk (v : PyValue) :
    bindValue (serializeBulk v) = .ok (storedOf v) := by
  cases v <;> rfl

/-- Binding a whole converted tuple on the `bulk_insert` path. -/
theorem bindAll_serializeBulk (vals : List PyValue) :
    bindAll (vals.map serializeBulk) = .ok (vals.map storedOf) := by
  induction vals with
  | nil => rfl
  | cons v l ih =>
      simp [bindAll, bindValue_serializeBulk, ih, except_bind_ok]

/-- Binding a raw tuple containing a Python list raises (the first failing
parameter aborts the statement). -/
theorem bindAll_has_list (vals : List PyValue) (l : List PyValue)
    (h : PyValue.list l ∈ vals) :
    bindAll vals =
      .error "Error binding parameter: type 'list' is not supported" := by
  induction vals with
  | nil => cases h
  | cons v vs ih =>
      rcases List.mem_cons.mp h with heq | hmem
      · subst heq
        rfl
      · cases v <;>
          simp [bindAll, bindValue, ih hmem, except_bind_ok, except_bind_error]

/-- C8, amended.  On the `bulk_insert` path the value tuple is converted in
code before binding — booleans become the integers 0/1 and list values
become their JSON string — and the converted row is what is stored; on the
`insert` path no conversion happens: the dumped values are bound raw, so a
boolean reaches storage as 0/1 only through the driver's own coercion, and
any list-valued field makes `insert` raise instead of being serialized. -/
theorem c8_write_encoding (tname : String) (t : Table) (item : Record)
    (d : List (String × PyValue)) (hd : item.dump = .ok d) :
    CRUD.bulk_insert tname t [item] =
      .ok ("Successfully inserted 1/1 records into " ++ tname,
           upsertRow t ((d.map (·.1)).zip (d.map fun kv => storedOf kv.2))) ∧
    (∀ (k : String) (l : List PyValue), (k, PyValue.list l) ∈ d →
       CRUD.insert t item =
         .error "Error binding parameter: type 'list' is not supported") := by
  constructor
  · have hser : (d.map fun kv => serializeBulk kv.2)
        = (d.map (·.2)).map serializeBulk := by
      simp [List.map_map, Function.comp]
    have hst : (d.map (·.2)).map storedOf = d.map fun kv => storedOf kv.2 := by
      simp [List.map_map, Function.comp]
    have htry : tryBulkInsertOne (d.map (·.1)) t item =
        .ok (Option.some
              (upsertRow t ((d.map (·.1)).zip (d.map fun kv => storedOf kv.2)))) := by
      unfold tryBulkInsertOne
      rw [hd]
      dsimp only
      rw [hser, bindAll_serializeBulk]
      dsimp only
      rw [if_pos (by simp), hst]
    unfold CRUD.bulk_insert
    dsimp only
    rw [hd]
    simp only [except_bind_ok, bulkLoop, htry]
    have hstr : ("Successfully inserted " ++ toString (0 + 1 : Nat) ++ "/" ++
        toString ([item].length) ++ " records into " : String)
        = "Successfully inserted 1/1 records into " := by
      simp only [List.length_singleton]
      rfl
    rw [hstr]
  · intro k l hmem
    have hl : PyValue.list l ∈ d.map (·.2) := by
      exact List.mem_map_of_mem _ hmem
    unfold CRUD.insert
    rw [hd, except_bind_ok]
    dsimp only
    rw [bindAll_has_list _ l hl, except_bind_error]

/-- C8 witness: a record with a boolean and a list field bulk-inserts into a
row storing `1` for the boolean and the JSON text for the list, while
`insert` on the same record raises on the raw list. -/
theorem c8_witness :
    CRUD.bulk_insert "tbl" tblEmpty [recBoolList] =
      .ok ("Successfully inserted 1/1 records into " ++ "tbl",
           upsertRow tblEmpty
             (([("id", PyValue.str "x1"), ("active", PyValue.bool true),
                ("tags", PyValue.list [.str "a", .str "b"])].map (·.1)).zip
              ([("id", PyValue.str "x1"), ("active", PyValue.bool true),
                ("tags", PyValue.list [.str "a", .str "b"])].map
                 fun kv => storedOf kv.2))) ∧
    CRUD.insert tblEmpty recBoolList =
      .error "Error binding parameter: type 'list' is not supported" := by
  have h := c8_write_encoding "tbl" tblEmpty recBoolList
    [("id", .str "x1"), ("active", .bool true),
     ("tags", .list [.str "a", .str "b"])] rfl
  exact ⟨h.1, h.2 "tags" [.str "a", .str "b"] (by simp)⟩

/-! ## Claim C9 -/

/-- C9, counterexample.  The claim states that for every non-empty record
list, a serialization failure on record `k` is caught, `k` is excluded from
the count, and the other records are still attempted with an `(N-1)/N`
summary.  For `k = 0` this is false: `bulk_insert` evaluates
`data_list[0].model_dump(mode='python')` OUTSIDE the per-row `try` to derive
the column list, so when the first record's dump raises, `bulk_insert`
itself raises — no summary is returned and the other record is never
attempted. -/
theorem c9_counterexample :
    CRUD.bulk_insert "t" tblEmpty [recBadDump, recA] = .error "dump blew up" := rfl

/-- A record whose dump raises makes the loop body raise, whatever the table
state: the `except` handler's logging re-invokes `model_dump`. -/
theorem tryBulkInsertOne_dump_error (fields0 : List String) (bad : Record)
    (e : String) (hbad : bad.dump = .error e) (t' : Table) :
    tryBulkInsertOne fields0 t' bad = .error e := by
  unfold tryBulkInsertOne
  rw [hbad]

/-- A record whose dump succeeds with the prepared arity always inserts,
whatever the current table state. -/
theorem tryBulkInsertOne_ok (d0 : List (String × PyValue)) (r : Record)
    (d : List (String × PyValue)) (hd : r.dump = .ok d)
    (hlen : d.length = d0.length) (t' : Table) :
    tryBulkInsertOne (d0.map (·.1)) t' r
      = .ok (Option.some (upsertRow t'
          ((d0.map (·.1)).zip (d.map fun kv => storedOf kv.2)))) := by
  unfold tryBulkInsertOne
  rw [hd]
  dsimp only
  have hser : (d.map fun kv => serializeBulk kv.2)
      = (d.map (·.2)).map serializeBulk := by
    simp [List.map_map, Function.comp]
  rw [hser, bindAll_serializeBulk]
  dsimp only
  rw [if_pos (by simp [hlen])]
  simp only [List.map_map]
  rfl

/-- A record that dumps fine but whose values do not fit the prepared
placeholders fails inside the `try` with a dump that still works in the
handler: the row is skipped, whatever the table state. -/
theorem tryBulkInsertOne_arity_skip (d0 : List (String × PyValue)) (r : Record)
    (d : List (String × PyValue)) (hd : r.dump = .ok d)
    (hlen : d.length ≠ d0.length) (t' : Table) :
    tryBulkInsertOne (d0.map (·.1)) t' r = .ok Option.none := by
  unfold tryBulkInsertOne
  rw [hd]
  dsimp only
  have hser : (d.map fun kv => serializeBulk kv.2)
      = (d.map (·.2)).map serializeBulk := by
    simp [List.map_map, Function.comp]
  rw [hser, bindAll_serializeBulk]
  dsimp only
  rw [if_neg (by simpa using hlen)]

/-- Counting lemma: over records that all dump with the prepared arity, the
loop succeeds and its success count grows by exactly the list length. -/
theorem bulkLoop_good (d0 : List (String × PyValue)) :
    ∀ (rs : List Record) (acc : Nat × Table),
      (∀ r ∈ rs, ∃ d, r.dump = .ok d ∧ d.length = d0.length) →
      ∃ T : Table, bulkLoop (d0.map (·.1)) rs acc = .ok (acc.1 + rs.length, T) := by
  intro rs
  induction rs with
  | nil =>
      intro acc _
      exact ⟨acc.2, by simp [bulkLoop]⟩
  | cons r rest ih =>
      intro acc hall
      obtain ⟨d, hd, hlen⟩ := hall r (by simp)
      obtain ⟨T, hT⟩ := ih
        (acc.1 + 1, upsertRow acc.2 ((d0.map (·.1)).zip (d.map fun kv => storedOf kv.2)))
        (fun w hw => hall w (by simp [hw]))
      refine ⟨T, ?_⟩
      simp only [bulkLoop, tryBulkInsertOne_ok d0 r d hd hlen]
      rw [hT]
      have harith : acc.1 + 1 + rest.length = acc.1 + (r :: rest).length := by
        simp only [List.length_cons]
        omega
      rw [harith]

/-- A record that the loop body skips contributes nothing: the loop over a
list containing it equals the loop without it. -/
theorem bulkLoop_skip (fields0 : List String) (bad : Record)
    (hskip : ∀ t', tryBulkInsertOne fields0 t' bad = .ok Option.none) :
    ∀ (xs ys : List Record) (acc : Nat × Table),
      bulkLoop fields0 (xs ++ bad :: ys) acc = bulkLoop fields0 (xs ++ ys) acc := by
  intro xs
  induction xs with
  | nil =>
      intro ys acc
      simp only [List.nil_append, bulkLoop, hskip acc.2]
  | cons r rest ih =>
      intro ys acc
      cases ho : tryBulkInsertOne fields0 acc.2 r with
      | error e =>
          simp only [List.cons_append, bulkLoop, ho]
      | ok o =>
          cases o with
          | none =>
              simp only [List.cons_append, bulkLoop, ho]
              exact ih ys acc
          | some t' =>
              simp only [List.cons_append, bulkLoop, ho]
              exact ih ys (acc.1 + 1, t')

/-- The loop propagates an exception raised while handling a record, once
every record before it is handled normally. -/
theorem bulkLoop_error_at (fields0 : List String) (bad : Record) (e : String)
    (hbad : ∀ t', tryBulkInsertOne fields0 t' bad = .error e) :
    ∀ (xs : List Record),
      (∀ r ∈ xs, ∀ t', ∃ o, tryBulkInsertOne fields0 t' r = .ok o) →
      ∀ (ys : List Record) (acc : Nat × Table),
        bulkLoop fields0 (xs ++ bad :: ys) acc = .error e := by
  intro xs
  induction xs with
  | nil =>
      intro _ ys acc
      simp only [List.nil_append, bulkLoop, hbad acc.2]
  | cons r rest ih =>
      intro hall ys acc
      obtain ⟨o, ho⟩ := hall r (by simp) acc.2
      cases o with
      | none =>
          simp only [List.cons_append, bulkLoop, ho]
          exact ih (fun w hw => hall w (by simp [hw])) ys acc
      | some t' =>
          simp only [List.cons_append, bulkLoop, ho]
          exact ih (fun w hw => hall w (by simp [hw])) ys (acc.1 + 1, t')

/-- C9, amended.  `bulk_insert`'s per-row isolation holds exactly for
failures that leave the failing record's `model_dump` working.  (a) If a
record at position k ≥ 1 dumps successfully but its insert attempt fails
(here: its values do not match the prepared statement's placeholder count),
the failure is caught, the record is excluded from the count, every other
record is still attempted, and the summary reports `(N-1)/N` with exactly
the table produced by inserting the other records in order — those rows are
present and retrievable afterwards.  (b) A record whose `model_dump` itself
raises defeats the isolation at EVERY position: at k = 0 the column-list
computation outside the `try` raises (see the counterexample), and at k ≥ 1
the `except` handler's log line re-invokes `model_dump`, so the exception
propagates out of `bulk_insert` — no summary, and the remaining records are
never attempted. -/
theorem c9_bulk_insert_isolation (tname : String) (t : Table)
    (x bad : Record) (xs ys : List Record)
    (d0 : List (String × PyValue))
    (hx : x.dump = .ok d0)
    (hgood : ∀ r ∈ x :: (xs ++ ys), ∃ d, r.dump = .ok d ∧ d.length = d0.length) :
    (∀ dbad, bad.dump = .ok dbad → dbad.length ≠ d0.length →
      ∃ T : Table,
        CRUD.bulk_insert tname t (x :: (xs ++ bad :: ys)) =
          .ok ("Successfully inserted " ++ toString (x :: (xs ++ ys)).length ++ "/" ++
                 toString (x :: (xs ++ bad :: ys)).length ++ " records into " ++ tname,
               T) ∧
        CRUD.bulk_insert tname t (x :: (xs ++ ys)) =
          .ok ("Successfully inserted " ++ toString (x :: (xs ++ ys)).length ++ "/" ++
                 toString (x :: (xs ++ ys)).length ++ " records into " ++ tname,
               T)) ∧
    (∀ e, bad.dump = .error e →
       CRUD.bulk_insert tname t (x :: (xs ++ bad :: ys)) = .error e) := by
  constructor
  · intro dbad hdbad hlen
    have hskip : ∀ t', tryBulkInsertOne (d0.map (·.1)) t' bad = .ok Option.none :=
      tryBulkInsertOne_arity_skip d0 bad dbad hdbad hlen
    obtain ⟨T, hT⟩ := bulkLoop_good d0 (x :: (xs ++ ys)) (0, t) hgood
    have hloop : bulkLoop (d0.map (·.1)) (x :: (xs ++ bad :: ys)) (0, t)
        = bulkLoop (d0.map (·.1)) (x :: (xs ++ ys)) (0, t) := by
      have h := bulkLoop_skip (d0.map (·.1)) bad hskip (x :: xs) ys (0, t)
      simpa using h
    refine ⟨T, ?_, ?_⟩
    · unfold CRUD.bulk_insert
      dsimp only
      rw [hx]
      simp only [except_bind_ok]
      rw [hloop, hT]
      simp only [except_bind_ok]
      rw [Nat.zero_add]
    · unfold CRUD.bulk_insert
      dsimp only
      rw [hx]
      simp only [except_bind_ok]
      rw [hT]
      simp only [except_bind_ok]
      rw [Nat.zero_add]
  · intro e hbade
    have hbadprop : ∀ t', tryBulkInsertOne (d0.map (·.1)) t' bad = .error e :=
      tryBulkInsertOne_dump_error (d0.map (·.1)) bad e hbade
    have hpre : ∀ r ∈ x :: xs, ∀ t',
        ∃ o, tryBulkInsertOne (d0.map (·.1)) t' r = .ok o := by
      intro r hr t'
      have hr' : r ∈ x :: (xs ++ ys) := by
        rcases List.mem_cons.mp hr with h | h
        · simp [h]
        · simp [List.mem_cons, List.mem_append, h]
      obtain ⟨d, hd, hlen⟩ := hgood r hr'
      exact ⟨_, tryBulkInsertOne_ok d0 r d hd hlen t'⟩
    have hloop : bulkLoop (d0.map (·.1)) ((x :: xs) ++ bad :: ys) (0, t) = .error e :=
      bulkLoop_error_at (d0.map (·.1)) bad e hbadprop (x :: xs) hpre ys (0, t)
    unfold CRUD.bulk_insert
    dsimp only
    rw [hx]
    simp only [except_bind_ok]
    rw [show x :: (xs ++ bad :: ys) = (x :: xs) ++ bad :: ys from by simp, hloop]
    rfl

/-- C9 witness: with a single-column first record, (a) a two-column middle
record fails its insert while dumping fine — the summary is `2/3` and the
final table is exactly the one obtained by bulk-inserting the two good
records; (b) a middle record whose dump raises makes `bulk_insert` itself
raise, with no summary. -/
theorem c9_witness :
    (∃ T : Table,
      CRUD.bulk_insert "t" tblEmpty [recA, recTwoCols, recB] =
        .ok ("Successfully inserted " ++ toString ([recA, recB].length) ++ "/" ++
               toString ([recA, recTwoCols, recB].length) ++ " records into " ++ "t",
             T) ∧
      CRUD.bulk_insert "t" tblEmpty [recA, recB] =
        .ok ("Successfully inserted " ++ toString ([recA, recB].length) ++ "/" ++
               toString ([recA, recB].length) ++ " records into " ++ "t",
             T)) ∧
    CRUD.bulk_insert "t" tblEmpty [recA, recBadDump, recB] = .error "dump blew up" := by
  have hgood : ∀ r ∈ recA :: ([] ++ [recB]),
      ∃ d, Record.dump r = .ok d ∧ d.length = [("id", PyValue.str "a")].length := by
    intro r hr
    simp at hr
    rcases hr with rfl | rfl
    · exact ⟨_, rfl, rfl⟩
    · exact ⟨_, rfl, rfl⟩
  have h1 := c9_bulk_insert_isolation "t" tblEmpty recA recTwoCols [] [recB]
    [("id", .str "a")] rfl hgood
  have h2 := c9_bulk_insert_isolation "t" tblEmpty recA recBadDump [] [recB]
    [("id", .str "a")] rfl hgood
  exact ⟨h1.1 [("id", .str "z"), ("extra", .int 1)] rfl (by decide),
         h2.2 "dump blew up" rfl⟩

/-! ## Claim C10 -/

/-- C10: `get` without `ALL` and without a complete `(id_field, id_value)`
pair raises `ValueError`; with a usable filter, a query matching no rows
returns the empty list rather than raising. -/
theorem c10_get_filter_contract (t : Table) :
    (∀ (f : Option String) (v : Option PyValue),
        (strTruthy f && v.isSome) = false →
        CRUD.get t f v false =
          .error "Must provide either ALL=True or (id_field + id_value)") ∧
    (∀ (f : String) (v : PyValue) (sv : SqlValue),
        f.isEmpty = false →
        bindValue v = .ok sv →
        t.rows.filter (fun row => match rowGet row f with
                                  | some w => sqlEq w sv
                                  | none => false) = [] →
        CRUD.get t (some f) (some v) false = .ok []) := by
  constructor
  · intro f v h
    simp [CRUD.get, h]
  · intro f v sv hf hbv hfil
    simp [CRUD.get, strTruthy, hf, hbv, hfil, except_bind_ok]

/-- C10 witness: no filter pair raises; a valid filter matching nothing
returns `[]`. -/
theorem c10_witness :
    CRUD.get tblEmpty none none false =
      .error "Must provide either ALL=True or (id_field + id_value)" ∧
    CRUD.get tblEmpty (some "id") (some (.str "z")) false = .ok [] :=
  ⟨(c10_get_filter_contract tblEmpty).1 none none rfl,
   (c10_get_filter_contract tblEmpty).2 "id" (.str "z") (.textV "z") rfl rfl rfl⟩

end BFHTW
